import Mathlib

set_option maxRecDepth 8000

/-!
Shallow embedding of the hyperfine measurement/execution engine
(`src/benchmark/executor.rs`) and the markdown exporter
(`src/export/markdown.rs`).

Conventions of the embedding:

* `Second` (Rust: `f64`) is modelled as `ℚ`; the arithmetic the code
  performs on times (subtraction, `max 0`, arithmetic mean, division) is
  exact on `ℚ`.
* The actual OS measurement (`execute_and_measure`) is an input oracle of
  type `Except String TimerResult`: the environment either produces a raw
  measurement or fails to spawn/wait.
* A Rust panic (`unwrap` on `None`, a failed `assert!`) is modelled by the
  value `none` of an `Option` result; a recoverable `anyhow` error is the
  `Except.error` case carrying the message string.
* stdio redirection, the `HYPERFINE_RANDOMIZED_ENVIRONMENT_OFFSET`
  environment variable and the progress bar do not influence any timing or
  control-flow value and are absorbed into the measurement oracle.
* We model the POSIX configuration (`cfg!(windows) = false`), so the shell
  is invoked with `-c`.
-/

namespace Hyperfine

/-- Rust `util::units::Second = f64`, modelled as `ℚ`. -/
abbrev Second := ℚ

/-- Rust `benchmark::timing_result::TimingResult`: a calibrated sample. -/
structure TimingResult where
  time_real : Second
  time_user : Second
  time_system : Second
  deriving DecidableEq, Repr

/-- Rust `std::process::ExitStatus`: either a normal exit with an integer code, or
termination by a signal. -/
inductive ExitStatus where
  | exited (code : Int)
  | signaled
  deriving DecidableEq, Repr

/-- Rust `ExitStatus::code()`: the exit code, absent on signal termination. -/
def ExitStatus.code : ExitStatus → Option Int
  | .exited c => some c
  | .signaled => none

/-- Rust `ExitStatus::success()`: exit code zero. -/
def ExitStatus.success : ExitStatus → Bool
  | .exited c => c == 0
  | .signaled => false

/-- Rust `timer::TimerResult`: one raw measurement. -/
structure TimerResult where
  time_real : Second
  time_user : Second
  time_system : Second
  status : ExitStatus
  deriving DecidableEq, Repr

/-- Rust `options::CmdFailureAction`. -/
inductive CmdFailureAction where
  | RaiseError
  | Ignore
  deriving DecidableEq, Repr

/-- The slice of `options::Options` the executor reads for control flow. -/
structure Options where
  command_failure_action : CmdFailureAction
  deriving DecidableEq, Repr

/-- Modelled from the spec: `command::Command` (its file is not in `src/`) is
an opaque, already-expanded command specification; `get_command_line` is the
canonical printable form. -/
structure Command where
  cname : Option String
  expression : String
  deriving DecidableEq, Repr

/-- Modelled from the spec: `Command::new(name, expression)`. -/
def Command.new (cname : Option String) (expression : String) : Command :=
  ⟨cname, expression⟩

/-- Modelled from the spec: `Command::get_command_line` returns the printable
command line; for `Command::new(None, e)` that is `e`. -/
def Command.get_command_line (c : Command) : String :=
  c.expression

/-- The fixed advice appended to every `ChildFailed` message in
`run_command_and_measure_common`. -/
def childFailedSuffix : String :=
  ". Use the \x27-i\x27/\x27--ignore-failure\x27 option if you want to ignore this. Alternatively, use the \x27--show-output\x27 option to debug what went wrong."

/-- The message built by the `bail!` in `run_command_and_measure_common`:
`result.status.code().map_or(signal-text, |c| non-zero-exit-code-text)`
followed by the fixed advice. -/
def child_failed_message (status : ExitStatus) : String :=
  (match status.code with
   | some c => "Command terminated with non-zero exit code: " ++ toString c
   | none => "The process has been terminated by a signal") ++ childFailedSuffix

/-- Rust `run_command_and_measure_common`: runs the prepared process (here: the
`measurement` oracle stands for `execute_and_measure`), contextualises a
spawn/wait failure with the printable command line, and applies the failure
policy: under `RaiseError` a non-success exit disposition becomes a
`ChildFailed` error. -/
def run_command_and_measure_common (measurement : Except String TimerResult)
    (command_failure_action : CmdFailureAction) (command_name : String) :
    Except String TimerResult :=
  match measurement with
  | .error err =>
      .error ("Failed to run command \x27" ++ command_name ++ "\x27: " ++ err)
  | .ok result =>
      if command_failure_action = CmdFailureAction.RaiseError ∧ result.status.success = false then
        .error (child_failed_message result.status)
      else
        .ok result

/-- Rust `RawExecutor` (its borrowed options). -/
structure RawExecutor where
  options : Options
  deriving DecidableEq, Repr

/-- Rust `RawExecutor::run_command_and_measure`: common helper on the command's own
process spec; raw times returned unchanged. -/
def RawExecutor.run_command_and_measure (e : RawExecutor)
    (measurement : Except String TimerResult) (command : Command)
    (command_failure_action : Option CmdFailureAction) :
    Except String (TimingResult × ExitStatus) :=
  match run_command_and_measure_common measurement
      (command_failure_action.getD e.options.command_failure_action)
      command.get_command_line with
  | .error err => .error err
  | .ok result =>
      .ok (⟨result.time_real, result.time_user, result.time_system⟩, result.status)

/-- Rust `RawExecutor::calibrate`: a no-op, `Ok(())`. -/
def RawExecutor.calibrate (e : RawExecutor) : Except String RawExecutor :=
  .ok e

/-- Rust `RawExecutor::time_overhead`: `0.0`. -/
def RawExecutor.time_overhead (_ : RawExecutor) : Second :=
  0

/-- Rust `ShellExecutor`: shell name plus the mutable calibration state
`shell_spawning_time`. -/
structure ShellExecutor where
  options : Options
  shell : String
  shell_spawning_time : Option TimingResult
  deriving DecidableEq, Repr

/-- Rust `ShellExecutor::run_command_and_measure`: the oracle stands for measuring
`<shell> -c <command-line>`; after the common helper, the cached
`shell_spawning_time` (when present) is subtracted component-wise with a floor
of `0.0` via `max`. -/
def ShellExecutor.run_command_and_measure (e : ShellExecutor)
    (measurement : Except String TimerResult) (command : Command)
    (command_failure_action : Option CmdFailureAction) :
    Except String (TimingResult × ExitStatus) :=
  match run_command_and_measure_common measurement
      (command_failure_action.getD e.options.command_failure_action)
      command.get_command_line with
  | .error err => .error err
  | .ok result =>
      match e.shell_spawning_time with
      | some spawning_time =>
          .ok (⟨max (result.time_real - spawning_time.time_real) 0,
                max (result.time_user - spawning_time.time_user) 0,
                max (result.time_system - spawning_time.time_system) 0⟩,
               result.status)
      | none =>
          .ok (⟨result.time_real, result.time_user, result.time_system⟩, result.status)

/-- Rust `statistical::mean`: arithmetic mean of a sample vector. -/
def mean (l : List ℚ) : ℚ :=
  l.sum / l.length

/-- The `bail!` message of `ShellExecutor::calibrate` on a failed sample
(POSIX form `<shell> -c ""`). -/
def calibration_error_message (shell : String) : String :=
  "Could not measure shell execution time. Make sure you can run \x27" ++ shell ++ " -c \"\"\x27."

/-- The sampling loop of `ShellExecutor::calibrate`: iteration `i` runs the
empty command `Command::new(None, "")` through `run_command_and_measure`
(oracle value `measurements i`); the first failing sample aborts with the
calibration error, otherwise the timing results are collected in order. -/
def ShellExecutor.calibrateFrom (e : ShellExecutor)
    (measurements : ℕ → Except String TimerResult) (i : ℕ) :
    ℕ → Except String (List TimingResult)
  | 0 => .ok []
  | fuel + 1 =>
      match e.run_command_and_measure (measurements i) (Command.new none "") none with
      | .error _ => .error (calibration_error_message e.shell)
      | .ok (r, _) =>
          match e.calibrateFrom measurements (i + 1) fuel with
          | .error err => .error err
          | .ok rest => .ok (r :: rest)

/-- Rust `ShellExecutor::calibrate`: run `COUNT = 50` empty-command samples, then
store the component-wise arithmetic mean as `shell_spawning_time`. -/
def ShellExecutor.calibrate (e : ShellExecutor)
    (measurements : ℕ → Except String TimerResult) : Except String ShellExecutor :=
  match e.calibrateFrom measurements 0 50 with
  | .error err => .error err
  | .ok samples =>
      .ok { e with
            shell_spawning_time := some
              ⟨mean (samples.map TimingResult.time_real),
               mean (samples.map TimingResult.time_user),
               mean (samples.map TimingResult.time_system)⟩ }

/-- Rust `ShellExecutor::time_overhead`: `self.shell_spawning_time.unwrap().time_real`.
The `unwrap` panic on an uncalibrated executor is the value `none`. -/
def ShellExecutor.time_overhead (e : ShellExecutor) : Option Second :=
  e.shell_spawning_time.map TimingResult.time_real

/-- Rust `str::trim_start_matches(pat)`: repeatedly remove the pattern from
the front while it matches (fuel-based structural recursion; the fuel
`s.length` always suffices for a non-empty pattern). -/
def trimAux (pat : List Char) : ℕ → List Char → List Char
  | 0, s => s
  | fuel + 1, s =>
      if !pat.isEmpty && pat.isPrefixOf s then
        trimAux pat fuel (s.drop pat.length)
      else
        s

/-- Rust `str::trim_start_matches(pat)` on strings. -/
def trimStartMatches (pat s : List Char) : List Char :=
  trimAux pat s.length s

/-- Digit string to number, `foldl`-style like Rust integer accumulation. -/
def digitsToNat (l : List Char) : ℕ :=
  l.foldl (fun n c => 10 * n + (c.toNat - 48)) 0

/-- Rust `f64::from_str` restricted to the finite decimal forms the mock executor
deals in: optional sign, then digits with an optional single decimal point
(at least one digit overall). The value is kept exact in `ℚ`. A `none` result
models a parse error (which `unwrap` turns into a panic). -/
def parseFloat (s : List Char) : Option ℚ :=
  let signed : ℚ × List Char :=
    match s with
    | '-' :: t => (-1, t)
    | '+' :: t => (1, t)
    | _ => (1, s)
  let sign := signed.1
  let rest := signed.2
  let intPart := rest.takeWhile Char.isDigit
  let rest2 := rest.dropWhile Char.isDigit
  match rest2 with
  | [] =>
      if intPart.isEmpty then none
      else some (sign * (digitsToNat intPart : ℚ))
  | '.' :: fracRest =>
      let fracPart := fracRest.takeWhile Char.isDigit
      let rest3 := fracRest.dropWhile Char.isDigit
      if rest3.isEmpty && !(intPart.isEmpty && fracPart.isEmpty) then
        some (sign * ((digitsToNat intPart : ℚ) +
          (digitsToNat fracPart : ℚ) / (10 : ℚ) ^ fracPart.length))
      else none
  | _ => none

/-- Rust `MockExecutor`. -/
structure MockExecutor where
  shell : Option String
  deriving DecidableEq, Repr

/-- Rust `MockExecutor::extract_time`: assert the `"sleep "` head, strip it with
`trim_start_matches`, parse the remainder as a float and `unwrap`. Both the
failed assertion and the failed parse are panics, modelled by `none`. -/
def MockExecutor.extract_time (sleep_command : String) : Option Second :=
  if ("sleep ".toList).isPrefixOf sleep_command.toList then
    parseFloat (trimStartMatches "sleep ".toList sleep_command.toList)
  else
    none

/-- Rust `MockExecutor::run_command_and_measure`: always `Ok` with a synthetic
success status (`ExitStatus::from_raw(0)`), `time_real` parsed from the
command line, `time_user = time_system = 0`; the outer `none` is the panic
of `extract_time`. -/
def MockExecutor.run_command_and_measure (_e : MockExecutor) (command : Command)
    (_command_failure_action : Option CmdFailureAction) :
    Option (Except String (TimingResult × ExitStatus)) :=
  (MockExecutor.extract_time command.get_command_line).map fun t =>
    .ok (⟨t, 0, 0⟩, ExitStatus.exited 0)

/-- Rust `MockExecutor::calibrate`: a no-op, `Ok(())`. -/
def MockExecutor.calibrate (e : MockExecutor) : Except String MockExecutor :=
  .ok e

/-- Rust `MockExecutor::time_overhead`: `0.0` without a configured shell, otherwise
`extract_time` of the shell string (whose panic is the outer `none`). -/
def MockExecutor.time_overhead (e : MockExecutor) : Option Second :=
  match e.shell with
  | none => some 0
  | some shell => MockExecutor.extract_time shell

/-- Rust `util::units::Unit`: the closed set of display units. -/
inductive Unit where
  | Second
  | MilliSecond
  deriving DecidableEq, Repr

/-- Rust `Unit::short_name`. -/
def Unit.short_name : Unit → String
  | .Second => "s"
  | .MilliSecond => "ms"

/-- Zero-padding on the left for fixed-point fraction digits. -/
def padZeros (s : String) (n : ℕ) : String :=
  if s.length < n then String.mk (List.replicate (n - s.length) '0') ++ s else s

/-- Modelled from the spec: Rust `format!` fixed-point rendering `{:.prec}`
of a duration value — round to `prec` decimals and print with a decimal
point. -/
def formatFixed (prec : ℕ) (q : ℚ) : String :=
  let scaled : Int := round (q * (10 : ℚ) ^ prec)
  let sign := if scaled < 0 then "-" else ""
  let a := scaled.natAbs
  if prec = 0 then sign ++ toString a
  else sign ++ toString (a / 10 ^ prec) ++ "." ++ padZeros (toString (a % 10 ^ prec)) prec

/-- Modelled from the spec: `output::format::format_duration_value` (its file
is not in `src/`). With an explicit unit, format in that unit; without one,
choose `Second` when the value is `≥ 1.0`, else `MilliSecond`. The fixed
per-unit policy is seconds → 3 decimals, milliseconds (value × 1000) →
1 decimal. Returns the formatted string together with the unit used. -/
def format_duration_value (value : Second) (unit : Option Unit) : String × Unit :=
  match unit with
  | some u =>
      match u with
      | .Second => (formatFixed 3 value, Unit.Second)
      | .MilliSecond => (formatFixed 1 (value * 1000), Unit.MilliSecond)
  | none =>
      if 1 ≤ value then (formatFixed 3 value, Unit.Second)
      else (formatFixed 1 (value * 1000), Unit.MilliSecond)

/-- Rust `benchmark::benchmark_result::BenchmarkResult`. -/
structure BenchmarkResult where
  command : String
  mean : Second
  stddev : Option Second
  median : Second
  user : Second
  system : Second
  min : Second
  max : Second
  times : Option (List Second)
  exit_codes : List (Option Int)
  parameters : List (String × String)
  deriving DecidableEq, Repr

/-- Rust `benchmark::relative_speed::BenchmarkResultWithRelativeSpeed`. -/
structure BenchmarkResultWithRelativeSpeed where
  result : BenchmarkResult
  relative_speed : ℚ
  relative_speed_stddev : Option ℚ
  is_fastest : Bool
  deriving DecidableEq, Repr

/-- A computable square-root approximation on `ℚ`, standing in for the real
square root in the error-propagation formula. No claim below depends on
its value. -/
def ratSqrt (q : ℚ) : ℚ :=
  (Nat.sqrt (q * 1000000 : ℚ).floor.toNat : ℚ) / 1000

/-- Index scan for the entry with the smallest mean, earliest on ties. -/
def fastestIdxGo (best_idx : ℕ) (best_mean : ℚ) (i : ℕ) :
    List BenchmarkResult → ℕ
  | [] => best_idx
  | r :: rs =>
      if r.mean < best_mean then fastestIdxGo i r.mean (i + 1) rs
      else fastestIdxGo best_idx best_mean (i + 1) rs

/-- Modelled from the spec: the analyzer's reference selection — the index of
the entry with the smallest `mean`, the earlier one on ties; absent for an
empty input. -/
def fastestIdx : List BenchmarkResult → Option ℕ
  | [] => none
  | r :: rs => some (fastestIdxGo 0 r.mean 1 rs)

/-- Modelled from the spec: the propagated uncertainty of the speed ratio,
present only when both standard deviations are present. -/
def relative_speed_stddev_of (r ref : BenchmarkResult) : Option ℚ :=
  match r.stddev, ref.stddev with
  | some s, some rs =>
      some (r.mean / ref.mean * ratSqrt ((s / r.mean) ^ 2 + (rs / ref.mean) ^ 2))
  | _, _ => none

/-- Modelled from the spec: `benchmark::relative_speed::compute` (its file is
not in `src/`). Yields no result for an empty input or when any result has
`mean ≤ 0`; otherwise annotates every entry with its speed relative to the
reference (the first entry of minimal mean), marking exactly that reference
`is_fastest` and leaving its `relative_speed_stddev` absent. -/
def compute (results : List BenchmarkResult) : Option (List BenchmarkResultWithRelativeSpeed) :=
  match fastestIdx results with
  | none => none
  | some idx =>
      match results[idx]? with
      | none => none
      | some ref =>
          if results.any (fun r => decide (r.mean ≤ 0)) then none
          else some (results.enum.map fun p =>
            { result := p.2
              relative_speed := p.2.mean / ref.mean
              relative_speed_stddev :=
                if p.1 = idx then none else relative_speed_stddev_of p.2 ref
              is_fastest := p.1 = idx })

/-- Rust `export::markdown::table_header`. -/
def table_header (unit_short_name : String) : String :=
  "| Command | Mean [" ++ unit_short_name ++ "] | Min [" ++ unit_short_name ++
    "] | Max [" ++ unit_short_name ++ "] | Relative |\n|:---|---:|---:|---:|---:|\n"

/-- Rust `export::markdown::start_table` (bytes modelled as the UTF-8 string). -/
def start_table (unit : Unit) : String :=
  table_header unit.short_name

/-- Rust `result.command.replace("|", "\\|")` from `add_table_row`: every
`|` becomes `\|`, every other character is copied unchanged. -/
def replacePipe : List Char → List Char
  | [] => []
  | c :: t => if c = '|' then '\\' :: '|' :: replacePipe t else c :: replacePipe t

/-- Rust `export::markdown::add_table_row`: the row appended to the destination
buffer for one annotated result. -/
def add_table_row (entry : BenchmarkResultWithRelativeSpeed) (unit : Unit) : String :=
  let result := entry.result
  let mean_str := (format_duration_value result.mean (some unit)).1
  let stddev_str :=
    match result.stddev with
    | some stddev => " ± " ++ (format_duration_value stddev (some unit)).1
    | none => ""
  let min_str := (format_duration_value result.min (some unit)).1
  let max_str := (format_duration_value result.max (some unit)).1
  let rel_str := formatFixed 2 entry.relative_speed
  let rel_stddev_str :=
    if entry.is_fastest then ""
    else
      match entry.relative_speed_stddev with
      | some stddev => " ± " ++ formatFixed 2 stddev
      | none => ""
  "| `" ++ String.mk (replacePipe result.command.toList) ++ "` | " ++
    mean_str ++ stddev_str ++ " | " ++ min_str ++ " | " ++ max_str ++ " | " ++
    rel_str ++ rel_stddev_str ++ " |\n"

/-- The portion of a markdown table row after the command cell: the numeric
cells of `add_table_row`, none of which involves the command string. -/
def rowTail (entry : BenchmarkResultWithRelativeSpeed) (unit : Unit) : String :=
  let result := entry.result
  let mean_str := (format_duration_value result.mean (some unit)).1
  let stddev_str :=
    match result.stddev with
    | some stddev => " ± " ++ (format_duration_value stddev (some unit)).1
    | none => ""
  let min_str := (format_duration_value result.min (some unit)).1
  let max_str := (format_duration_value result.max (some unit)).1
  let rel_str := formatFixed 2 entry.relative_speed
  let rel_stddev_str :=
    if entry.is_fastest then ""
    else
      match entry.relative_speed_stddev with
      | some stddev => " ± " ++ formatFixed 2 stddev
      | none => ""
  mean_str ++ stddev_str ++ " | " ++ min_str ++ " | " ++ max_str ++ " | " ++
    rel_str ++ rel_stddev_str ++ " |\n"

/-- The `anyhow!` message of `MarkdownExporter::serialize` when the analyzer
yields no result. -/
def export_failed_message : String :=
  "Relative speed comparison is not available for Markdown export."

/-- Rust `MarkdownExporter::serialize`: effective unit resolution (explicit unit,
else the unit chosen by formatting the first result's mean, else `Second`),
then header plus one row per annotated result, or the export failure when
the analyzer yields no result. -/
def MarkdownExporter.serialize (results : List BenchmarkResult) (unit : Option Unit) :
    Except String String :=
  let unit :=
    match unit with
    | some u => u
    | none =>
        match results with
        | first_result :: _ => (format_duration_value first_result.mean none).2
        | [] => Unit.Second
  match compute results with
  | some annotated_results =>
      .ok (start_table unit ++ String.join (annotated_results.map fun r => add_table_row r unit))
  | none => .error export_failed_message

deriving instance DecidableEq for Except

/-- A deterministic measurement oracle: every spawn of the shell succeeds with
one second of real, user and system time and exit code 0. -/
def constOkMeasurement : ℕ → Except String TimerResult :=
  fun _ => .ok ⟨1, 1, 1, .exited 0⟩

/-- A deterministic measurement oracle on which every spawn fails. -/
def constFailMeasurement : ℕ → Except String TimerResult :=
  fun _ => .error "spawn failed"

/-- An uncalibrated shell executor used for concrete evaluations. -/
def sampleShellExecutor : ShellExecutor :=
  ⟨⟨CmdFailureAction.Ignore⟩, "sh", none⟩

/-- A calibrated shell executor (spawning time one second in each component)
used for concrete evaluations. -/
def calibratedShellExecutor : ShellExecutor :=
  ⟨⟨CmdFailureAction.Ignore⟩, "sh", some ⟨1, 1, 1⟩⟩

lemma trimAux_no_match (pat s : List Char) (h : pat.isPrefixOf s = false) :
    ∀ fuel, trimAux pat fuel s = s := by
  intro fuel
  cases fuel <;> simp [trimAux, h]

lemma isPrefixOf_append_self (pat rest : List Char) : pat.isPrefixOf (pat ++ rest) = true := by
  induction pat with
  | nil => simp [List.isPrefixOf]
  | cons a as ih => simp [List.isPrefixOf, ih]

lemma trim_strip (pat lit : List Char) (hne : pat ≠ [])
    (h : pat.isPrefixOf lit = false) : trimStartMatches pat (pat ++ lit) = lit := by
  unfold trimStartMatches
  have hpos : 0 < pat.length := List.length_pos.mpr hne
  have hlen : (pat ++ lit).length = (pat.length - 1 + lit.length) + 1 := by
    simp only [List.length_append]
    omega
  rw [hlen]
  have hpe : pat.isEmpty = false := by
    cases pat with
    | nil => exact absurd rfl hne
    | cons a as => rfl
  simp [trimAux, hpe, isPrefixOf_append_self, List.drop_left]
  exact trimAux_no_match pat lit h _

lemma toList_append_eq (s t : String) : (s ++ t).toList = s.toList ++ t.toList := rfl

/-- A string that parses as a float cannot start with `"sleep "` (its first
character is a sign, a digit or a decimal point). -/
lemma parseFloat_not_sleep (lit : List Char) (q : ℚ) (h : parseFloat lit = some q) :
    ("sleep ".toList).isPrefixOf lit = false := by
  cases lit with
  | nil => rfl
  | cons c rest =>
    by_contra hp
    rw [Bool.not_eq_false] at hp
    have hc : c = 's' := by
      have hsl : ("sleep ".toList) = 's' :: "leep ".toList := rfl
      rw [hsl] at hp
      simp [List.isPrefixOf] at hp
      exact hp.1.symm
    subst hc
    simp [parseFloat] at h

/-- On a command of the form `"sleep <float>"`, `extract_time` strips the
prefix once and returns the parsed float. -/
lemma extract_time_sleep (lit : String) (q : ℚ) (hq : parseFloat lit.toList = some q) :
    MockExecutor.extract_time ("sleep " ++ lit) = some q := by
  unfold MockExecutor.extract_time
  rw [toList_append_eq, isPrefixOf_append_self,
    trim_strip "sleep ".toList lit.toList (by decide) (parseFloat_not_sleep _ q hq)]
  simpa using hq

/-- If every sample in range succeeds, the calibration loop collects all the
timing results in order. -/
lemma calibrateFrom_ok (e : ShellExecutor) (m : ℕ → Except String TimerResult)
    (f : ℕ → TimingResult) (st : ℕ → ExitStatus) :
    ∀ (fuel i : ℕ),
      (∀ k, k < fuel →
        e.run_command_and_measure (m (i + k)) (Command.new none "") none = .ok (f (i + k), st (i + k))) →
      e.calibrateFrom m i fuel = .ok ((List.range fuel).map fun k => f (i + k))
  | 0, i, _ => by simp [ShellExecutor.calibrateFrom]
  | fuel + 1, i, h => by
    have h0 := h 0 (Nat.succ_pos _)
    rw [Nat.add_zero] at h0
    have ih := calibrateFrom_ok e m f st fuel (i + 1) (fun k hk => by
      have hx := h (k + 1) (by omega)
      rwa [show i + (k + 1) = i + 1 + k by omega] at hx)
    rw [ShellExecutor.calibrateFrom, h0, ih]
    simp [List.range_succ_eq_map, List.map_map, Function.comp]
    intro a _
    congr 1
    omega

/-- If any sample in range fails, the calibration loop aborts with the
calibration error message. -/
lemma calibrateFrom_error (e : ShellExecutor) (m : ℕ → Except String TimerResult) :
    ∀ (fuel i : ℕ),
      (∃ k, k < fuel ∧ ∃ msg,
        e.run_command_and_measure (m (i + k)) (Command.new none "") none = .error msg) →
      e.calibrateFrom m i fuel = .error (calibration_error_message e.shell)
  | 0, _, h => by
    obtain ⟨k, hk, -⟩ := h
    exact absurd hk (by omega)
  | fuel + 1, i, h => by
    obtain ⟨k, hk, msg, hmsg⟩ := h
    rw [ShellExecutor.calibrateFrom]
    cases hrun : e.run_command_and_measure (m i) (Command.new none "") none with
    | error err => rfl
    | ok pr =>
      cases k with
      | zero =>
        rw [Nat.add_zero] at hmsg
        rw [hmsg] at hrun
        exact absurd hrun (by simp)
      | succ k' =>
        have ih := calibrateFrom_error e m fuel (i + 1)
          ⟨k', by omega, msg, by rwa [show i + 1 + k' = i + (k' + 1) by omega]⟩
        rw [ih]

/-- Helper for C8: the index scan for the smallest mean stays below the sum of
the bound on the running best and the remaining length. -/
lemma fastestIdxGo_lt (l : List BenchmarkResult) :
    ∀ (best i : ℕ) (bm : ℚ), fastestIdxGo best bm i l < max (best + 1) (i + l.length) := by
  induction l with
  | nil =>
    intro best i bm
    simp only [fastestIdxGo, List.length_nil, Nat.add_zero]
    omega
  | cons r rs ih =>
    intro best i bm
    simp only [fastestIdxGo, List.length_cons]
    split
    · have := ih i (i + 1) r.mean
      omega
    · have := ih best (i + 1) bm
      omega

/-- Helper for C8: the analyzer yields no result exactly for an empty input or
when some result has a non-positive mean. -/
lemma compute_eq_none_iff (results : List BenchmarkResult) :
    compute results = none ↔ results = [] ∨ ∃ r ∈ results, r.mean ≤ 0 := by
  cases results with
  | nil => simp [compute, fastestIdx]
  | cons r rs =>
    have hidx : fastestIdxGo 0 r.mean 1 rs < (r :: rs).length := by
      have := fastestIdxGo_lt rs 0 1 r.mean
      simp only [List.length_cons]
      omega
    have hget := List.getElem?_eq_getElem hidx
    cases hany : (r :: rs).any (fun x => decide (x.mean ≤ 0)) with
    | true =>
      constructor
      · intro _
        right
        simpa [List.any_eq_true, decide_eq_true_eq] using hany
      · intro _
        simp [compute, fastestIdx, hget, hany]
    | false =>
      constructor
      · intro hnone
        have hc : compute (r :: rs) ≠ none := by
          simp [compute, fastestIdx, hget, hany]
        exact absurd hnone hc
      · intro hor
        rcases hor with hnil | hex
        · exact absurd hnil (by simp)
        · have hto : (r :: rs).any (fun x => decide (x.mean ≤ 0)) = true := by
            simpa [List.any_eq_true, decide_eq_true_eq] using hex
          rw [hany] at hto
          exact absurd hto (by simp)

/-- C1: with a cached `shell_spawning_time`, every measurement returned by
`ShellExecutor::run_command_and_measure` has each of `time_real`, `time_user`
and `time_system` equal to the raw measured value minus the corresponding
cached component floored at `0`, and consequently every field of every
`TimingResult` it returns is non-negative. -/
theorem shell_run_subtracts_spawning_time_and_floors
    (e : ShellExecutor) (st : TimingResult) (m : Except String TimerResult)
    (c : Command) (a : Option CmdFailureAction)
    (hst : e.shell_spawning_time = some st) :
    (∀ raw : TimerResult,
      run_command_and_measure_common m (a.getD e.options.command_failure_action)
          c.get_command_line = .ok raw →
      e.run_command_and_measure m c a =
        .ok (⟨max (raw.time_real - st.time_real) 0,
              max (raw.time_user - st.time_user) 0,
              max (raw.time_system - st.time_system) 0⟩, raw.status)) ∧
    (∀ t s, e.run_command_and_measure m c a = .ok (t, s) →
      0 ≤ t.time_real ∧ 0 ≤ t.time_user ∧ 0 ≤ t.time_system) := by
  constructor
  · intro raw hraw
    unfold ShellExecutor.run_command_and_measure
    rw [hraw, hst]
  · intro t s ht
    unfold ShellExecutor.run_command_and_measure at ht
    cases hcom : run_command_and_measure_common m (a.getD e.options.command_failure_action)
        c.get_command_line with
    | error err => rw [hcom] at ht; exact absurd ht (by simp)
    | ok raw =>
      rw [hcom, hst] at ht
      simp only [Except.ok.injEq, Prod.mk.injEq] at ht
      obtain ⟨ht1, -⟩ := ht
      subst ht1
      exact ⟨le_max_right _ _, le_max_right _ _, le_max_right _ _⟩

/-- Witness for C1: a calibrated executor with spawning time `(1, 1, 1)` and a
raw measurement `(2, 1/2, 3)` yields the floored differences `(1, 0, 2)`,
which are non-negative. -/
theorem shell_run_subtracts_witness :
    ShellExecutor.run_command_and_measure calibratedShellExecutor
      (.ok ⟨2, 1/2, 3, .exited 0⟩) (Command.new none "x") none =
      .ok (⟨1, 0, 2⟩, .exited 0) ∧
    (0 : ℚ) ≤ 1 ∧ (0 : ℚ) ≤ 0 ∧ (0 : ℚ) ≤ 2 := by
  have h := shell_run_subtracts_spawning_time_and_floors calibratedShellExecutor ⟨1, 1, 1⟩
    (.ok ⟨2, 1/2, 3, .exited 0⟩) (Command.new none "x") none rfl
  have h2 : ShellExecutor.run_command_and_measure calibratedShellExecutor
      (.ok ⟨2, 1/2, 3, .exited 0⟩) (Command.new none "x") none =
      .ok (⟨1, 0, 2⟩, .exited 0) :=
    (h.1 ⟨2, 1/2, 3, .exited 0⟩ (by with_unfolding_all decide)).trans
      (by with_unfolding_all decide)
  exact ⟨h2, h.2 ⟨1, 0, 2⟩ (.exited 0) h2⟩

/-- C2: `ShellExecutor::calibrate` runs exactly 50 invocations of the
empty-printable-form command through the shell; if all succeed it stores the
component-wise arithmetic mean of the 50 samples as `shell_spawning_time`,
and if any invocation fails it aborts with the calibration error whose
message echoes the exact `<shell> -c ""` invocation. -/
theorem shell_calibrate_spec (e : ShellExecutor) (m : ℕ → Except String TimerResult) :
    (Command.new none "").get_command_line = "" ∧
    (∀ (f : ℕ → TimingResult) (st : ℕ → ExitStatus),
      (∀ i, i < 50 →
        e.run_command_and_measure (m i) (Command.new none "") none = .ok (f i, st i)) →
      e.calibrate m = .ok { e with
        shell_spawning_time := some
          ⟨mean ((List.range 50).map fun i => (f i).time_real),
           mean ((List.range 50).map fun i => (f i).time_user),
           mean ((List.range 50).map fun i => (f i).time_system)⟩ }) ∧
    ((∃ i, i < 50 ∧ ∃ msg,
        e.run_command_and_measure (m i) (Command.new none "") none = .error msg) →
      e.calibrate m = .error (calibration_error_message e.shell)) ∧
    calibration_error_message e.shell =
      "Could not measure shell execution time. Make sure you can run \x27" ++ e.shell ++ " -c \"\"\x27." := by
  refine ⟨rfl, ?_, ?_, rfl⟩
  · intro f st h
    have hok := calibrateFrom_ok e m f st 50 0 (fun k hk => by simpa using h k hk)
    unfold ShellExecutor.calibrate
    rw [hok]
    simp only [List.map_map, Nat.zero_add, Except.ok.injEq, ShellExecutor.mk.injEq,
      Option.some.injEq, TimingResult.mk.injEq, true_and]
    exact ⟨rfl, rfl, rfl⟩
  · intro hex
    obtain ⟨i, hi, msg, hmsg⟩ := hex
    unfold ShellExecutor.calibrate
    rw [calibrateFrom_error e m 50 0 ⟨i, hi, msg, by simpa using hmsg⟩]

/-- Witness for C2: with the constant all-ones measurement oracle, calibration
stores spawning time `(1, 1, 1)`; with the constantly failing oracle it aborts
with the calibration error for shell `"sh"`. -/
theorem shell_calibrate_witness :
    ShellExecutor.calibrate sampleShellExecutor constOkMeasurement =
      .ok calibratedShellExecutor ∧
    ShellExecutor.calibrate sampleShellExecutor constFailMeasurement =
      .error (calibration_error_message "sh") := by
  have h := shell_calibrate_spec sampleShellExecutor constOkMeasurement
  have hf := shell_calibrate_spec sampleShellExecutor constFailMeasurement
  refine ⟨(h.2.1 (fun _ => ⟨1, 1, 1⟩) (fun _ => .exited 0)
      (fun _ _ => by with_unfolding_all rfl)).trans (by with_unfolding_all decide),
    hf.2.2.1 ⟨0, by omega, _, rfl⟩⟩

/-- C3: after a successful `calibrate`, `ShellExecutor::time_overhead` returns
the cached `shell_spawning_time.time_real`; on an uncalibrated executor the
`unwrap` panics (modelled by `none`) instead of returning a default. -/
theorem shell_time_overhead_spec :
    (∀ (e e2 : ShellExecutor) (m : ℕ → Except String TimerResult),
      e.calibrate m = .ok e2 →
      ∃ st : TimingResult, e2.shell_spawning_time = some st ∧
        e2.time_overhead = some st.time_real) ∧
    (∀ e : ShellExecutor, e.shell_spawning_time = none → e.time_overhead = none) := by
  constructor
  · intro e e2 m h
    unfold ShellExecutor.calibrate at h
    cases hc : e.calibrateFrom m 0 50 with
    | error err => rw [hc] at h; exact absurd h (by simp)
    | ok samples =>
      rw [hc] at h
      simp only [Except.ok.injEq] at h
      subst h
      exact ⟨_, rfl, rfl⟩
  · intro e he
    unfold ShellExecutor.time_overhead
    rw [he]
    rfl

/-- Witness for C3: the executor produced by a concrete successful calibration
reports its cached real time, and the uncalibrated executor panics (`none`). -/
theorem shell_time_overhead_witness :
    (∃ st : TimingResult, calibratedShellExecutor.shell_spawning_time = some st ∧
      calibratedShellExecutor.time_overhead = some st.time_real) ∧
    ShellExecutor.time_overhead sampleShellExecutor = none :=
  ⟨shell_time_overhead_spec.1 sampleShellExecutor calibratedShellExecutor constOkMeasurement
      (by with_unfolding_all decide),
    shell_time_overhead_spec.2 sampleShellExecutor rfl⟩

/-- C4: in the common measurement helper, under `RaiseError` a non-success
exit disposition fails with the `ChildFailed` message that carries the
non-zero exit code when one exists and the signal-termination indicator
otherwise; under `Ignore` the result is returned regardless of the exit
disposition. -/
theorem common_failure_action_spec (m : Except String TimerResult) (raw : TimerResult)
    (name : String) (hok : m = .ok raw) :
    (run_command_and_measure_common m CmdFailureAction.Ignore name = .ok raw) ∧
    (raw.status.success = false →
      run_command_and_measure_common m CmdFailureAction.RaiseError name =
        .error (child_failed_message raw.status)) ∧
    (∀ c : Int, child_failed_message (.exited c) =
      "Command terminated with non-zero exit code: " ++ toString c ++ childFailedSuffix) ∧
    (child_failed_message .signaled =
      "The process has been terminated by a signal" ++ childFailedSuffix) := by
  subst hok
  refine ⟨?_, ?_, ?_, ?_⟩
  · simp [run_command_and_measure_common]
  · intro hf
    simp [run_command_and_measure_common, hf]
  · intro c
    rfl
  · rfl

/-- Witness for C4: exit code 3 under `RaiseError` produces the exit-code
message, a signal termination produces the signal message, and `Ignore`
passes the result through. -/
theorem common_failure_action_witness :
    run_command_and_measure_common (.ok ⟨1, 1, 1, .exited 3⟩) .RaiseError "x" =
      .error ("Command terminated with non-zero exit code: 3" ++ childFailedSuffix) ∧
    run_command_and_measure_common (.ok ⟨1, 1, 1, .signaled⟩) .RaiseError "x" =
      .error ("The process has been terminated by a signal" ++ childFailedSuffix) ∧
    run_command_and_measure_common (.ok ⟨1, 1, 1, .exited 3⟩) .Ignore "x" =
      .ok ⟨1, 1, 1, .exited 3⟩ := by
  have h3 := common_failure_action_spec (.ok ⟨1, 1, 1, .exited 3⟩) ⟨1, 1, 1, .exited 3⟩ "x" rfl
  have hs := common_failure_action_spec (.ok ⟨1, 1, 1, .signaled⟩) ⟨1, 1, 1, .signaled⟩ "x" rfl
  exact ⟨(h3.2.1 (by decide)).trans (by with_unfolding_all decide),
    (hs.2.1 rfl).trans (by with_unfolding_all decide), h3.1⟩

/-- C5: on a command `"sleep <float>"` the mock executor returns
`TimingResult (float, 0, 0)` with a success (exit code 0) status, and
`time_overhead` returns `0` without a configured shell and the parsed float
of a configured `"sleep <float>"` shell string. -/
theorem mock_executor_spec (lit : String) (q : ℚ) (e : MockExecutor)
    (a : Option CmdFailureAction) (hq : parseFloat lit.toList = some q) :
    MockExecutor.run_command_and_measure e (Command.new none ("sleep " ++ lit)) a =
      some (.ok (⟨q, 0, 0⟩, ExitStatus.exited 0)) ∧
    (ExitStatus.exited 0).success = true ∧
    (e.shell = none → e.time_overhead = some 0) ∧
    (e.shell = some ("sleep " ++ lit) → e.time_overhead = some q) := by
  refine ⟨?_, rfl, ?_, ?_⟩
  · unfold MockExecutor.run_command_and_measure
    rw [show (Command.new none ("sleep " ++ lit)).get_command_line = "sleep " ++ lit from rfl,
      extract_time_sleep lit q hq]
    rfl
  · intro h
    unfold MockExecutor.time_overhead
    rw [h]
  · intro h
    unfold MockExecutor.time_overhead
    rw [h]
    exact extract_time_sleep lit q hq

/-- Witness for C5: the command `"sleep 0.1"` yields `time_real = 1/10`,
`time_user = time_system = 0` with success, and `time_overhead` is `0`
without a shell and `1/10` with shell `"sleep 0.1"`. -/
theorem mock_executor_witness :
    MockExecutor.run_command_and_measure ⟨none⟩ (Command.new none "sleep 0.1") none =
      some (.ok (⟨1/10, 0, 0⟩, ExitStatus.exited 0)) ∧
    MockExecutor.time_overhead ⟨none⟩ = some 0 ∧
    MockExecutor.time_overhead ⟨some "sleep 0.1"⟩ = some (1/10) := by
  have hpq : parseFloat ("0.1" : String).toList = some (1/10 : ℚ) := by
    with_unfolding_all decide
  have h1 := mock_executor_spec "0.1" (1/10) (⟨none⟩ : MockExecutor) none hpq
  have h2 := mock_executor_spec "0.1" (1/10) (⟨some ("sleep " ++ "0.1")⟩ : MockExecutor) none hpq
  have hs : ("sleep " ++ "0.1" : String) = "sleep 0.1" := rfl
  refine ⟨?_, h1.2.2.1 rfl, ?_⟩
  · have := h1.1
    rwa [hs] at this
  · have := h2.2.2.2 rfl
    rwa [hs] at this

/-- Amended C6: `RawExecutor::calibrate` and `MockExecutor::calibrate` are
no-ops and hence idempotent; `ShellExecutor::calibrate` is not idempotent in
general (see the counterexample), since a second calibration subtracts the
cached spawning time from its own samples. -/
theorem raw_and_mock_calibrate_idempotent (r : RawExecutor) (mk : MockExecutor) :
    r.calibrate = .ok r ∧ r.calibrate.bind RawExecutor.calibrate = r.calibrate ∧
    mk.calibrate = .ok mk ∧ mk.calibrate.bind MockExecutor.calibrate = mk.calibrate :=
  ⟨rfl, rfl, rfl, rfl⟩

/-- Counterexample to C6: under the constant all-ones measurement oracle, the
first shell calibration stores spawning time `(1, 1, 1)` but a second
calibration of the resulting executor stores `(0, 0, 0)` (each new sample is
floored to zero by the subtraction), so the cached state and the subsequent
`time_overhead` results differ. -/
theorem shell_calibrate_not_idempotent :
    ShellExecutor.calibrate sampleShellExecutor constOkMeasurement =
      .ok calibratedShellExecutor ∧
    ShellExecutor.calibrate calibratedShellExecutor constOkMeasurement =
      .ok ⟨⟨CmdFailureAction.Ignore⟩, "sh", some ⟨0, 0, 0⟩⟩ ∧
    ShellExecutor.time_overhead calibratedShellExecutor = some 1 ∧
    ShellExecutor.time_overhead ⟨⟨CmdFailureAction.Ignore⟩, "sh", some ⟨0, 0, 0⟩⟩ = some 0 ∧
    calibratedShellExecutor ≠ ⟨⟨CmdFailureAction.Ignore⟩, "sh", some ⟨0, 0, 0⟩⟩ := by
  with_unfolding_all decide

/-- C7: `MarkdownExporter::serialize` resolves a single effective unit — the
explicit unit if given, else the unit chosen by the shared duration formatter
on the first result mean (`Second` when the mean is at least `1`, else
`MilliSecond`), else `Second` for an empty input — and uses it for the header
and every row. -/
theorem serialize_effective_unit (results : List BenchmarkResult) (unit : Option Unit) :
    (MarkdownExporter.serialize results unit =
      (fun u =>
        match compute results with
        | some annotated_results =>
            Except.ok (start_table u ++
              String.join (annotated_results.map fun r => add_table_row r u))
        | none => Except.error export_failed_message)
      (match unit, results with
        | some u, _ => u
        | none, first_result :: _ => (format_duration_value first_result.mean none).2
        | none, [] => Unit.Second)) ∧
    (∀ q : ℚ, (format_duration_value q none).2 =
      if 1 ≤ q then Unit.Second else Unit.MilliSecond) := by
  constructor
  · cases unit with
    | some u => rfl
    | none =>
      cases results with
      | nil => rfl
      | cons r rs => rfl
  · intro q
    by_cases hq1 : 1 ≤ q
    · simp [format_duration_value, hq1]
    · simp [format_duration_value, hq1]

/-- C8: `MarkdownExporter::serialize` fails (with the fixed export-failure
message) exactly when the relative-speed analyzer yields no result — that is,
for an empty input or when some result has a non-positive mean — and
otherwise returns the serialized table. -/
theorem serialize_export_failure_iff (results : List BenchmarkResult) (unit : Option Unit) :
    (MarkdownExporter.serialize results unit = .error export_failed_message ∨
      ∃ bytes, MarkdownExporter.serialize results unit = .ok bytes) ∧
    (MarkdownExporter.serialize results unit = .error export_failed_message ↔
      compute results = none) ∧
    (compute results = none ↔ results = [] ∨ ∃ r ∈ results, r.mean ≤ 0) := by
  refine ⟨?_, ?_, compute_eq_none_iff results⟩
  · unfold MarkdownExporter.serialize
    cases hc : compute results with
    | none => left; simp [hc]
    | some anns => right; exact ⟨_, rfl⟩
  · unfold MarkdownExporter.serialize
    cases hc : compute results with
    | none => simp [hc]
    | some anns => simp [hc]

/-- C9: in every markdown table row the command cell is the command string
with each `|` rendered as `\|` and every other character copied unchanged,
followed by the unit-formatted numeric cells. -/
theorem add_table_row_escapes_pipes (entry : BenchmarkResultWithRelativeSpeed) (unit : Unit) :
    (add_table_row entry unit =
      "| `" ++ String.mk (replacePipe entry.result.command.toList) ++ "` | " ++
        rowTail entry unit) ∧
    (∀ s : List Char, replacePipe s = s.flatMap fun c => if c = '|' then ['\\', '|'] else [c]) := by
  constructor
  · simp [add_table_row, rowTail, String.append_assoc]
  · intro s
    induction s with
    | nil => rfl
    | cons c t ih =>
      simp only [replacePipe, List.flatMap_cons, ← ih]
      split <;> simp

/-- C10: `MockExecutor::extract_time` panics (modelled by `none`) — never
returning an error value — whenever the input does not start with `"sleep "`
or its remainder does not parse as a float, the panic propagates through
`run_command_and_measure` and `time_overhead`, and on inputs of the form
`"sleep <float>"` the panic branch is unreachable. -/
theorem mock_extract_time_panic_spec (s : String) :
    (("sleep ".toList).isPrefixOf s.toList = false → MockExecutor.extract_time s = none) ∧
    (("sleep ".toList).isPrefixOf s.toList = true →
      parseFloat (trimStartMatches "sleep ".toList s.toList) = none →
      MockExecutor.extract_time s = none) ∧
    (∀ (e : MockExecutor) (c : Command) (a : Option CmdFailureAction) (msg : String),
      MockExecutor.run_command_and_measure e c a ≠ some (.error msg)) ∧
    (MockExecutor.extract_time s = none →
      ∀ (e : MockExecutor) (a : Option CmdFailureAction),
        MockExecutor.run_command_and_measure e (Command.new none s) a = none) ∧
    (MockExecutor.extract_time s = none →
      MockExecutor.time_overhead ⟨some s⟩ = none) ∧
    (∀ (lit : String) (q : ℚ), parseFloat lit.toList = some q →
      MockExecutor.extract_time ("sleep " ++ lit) ≠ none) := by
  refine ⟨?_, ?_, ?_, ?_, ?_, ?_⟩
  · intro h
    unfold MockExecutor.extract_time
    rw [h]
    rfl
  · intro h1 h2
    unfold MockExecutor.extract_time
    rw [h1]
    exact h2
  · intro e c a msg
    unfold MockExecutor.run_command_and_measure
    cases hx : MockExecutor.extract_time c.get_command_line <;> simp [hx]
  · intro h e a
    unfold MockExecutor.run_command_and_measure
    rw [show (Command.new none s).get_command_line = s from rfl, h]
    rfl
  · intro h
    exact h
  · intro lit q hql
    rw [extract_time_sleep lit q hql]
    simp

/-- Witness for C10: `"echo hi"` and `"sleep x"` make `extract_time` (and the
run and overhead paths) panic, while `"sleep 0.1"` does not. -/
theorem mock_extract_time_panic_witness :
    MockExecutor.extract_time "echo hi" = none ∧
    MockExecutor.run_command_and_measure ⟨none⟩ (Command.new none "echo hi") none = none ∧
    MockExecutor.time_overhead ⟨some "echo hi"⟩ = none ∧
    MockExecutor.extract_time "sleep x" = none ∧
    MockExecutor.extract_time ("sleep " ++ "0.1") ≠ none := by
  have h := mock_extract_time_panic_spec "echo hi"
  have hx := mock_extract_time_panic_spec "sleep x"
  have h1 : MockExecutor.extract_time "echo hi" = none := h.1 (by decide)
  exact ⟨h1, h.2.2.2.1 h1 ⟨none⟩ none, h.2.2.2.2.1 h1,
    hx.2.1 (by decide) (by with_unfolding_all decide),
    h.2.2.2.2.2 "0.1" (1/10) (by with_unfolding_all decide)⟩

end Hyperfine
